import Mathlib

/-!
Verification of the presence/idle tracking core of the rustBot repository
(`src/main.py`) against its natural-language specification.

The Python module keeps several module-level dictionaries
(`player_seen`, `last_update`, `player_online`, `last_positions`,
`idle_timers`, `idle_notify_intervals`, `movement_trail`) and mutates them
from `update_presence` (the PresenceTracker), `handle_idle` (the
IdleDetector) and `rust_polling_loop` (the PollingLoop).  We embed those
dictionaries as total functions `ℕ → Option _` (a key is "absent" when the
function returns `none`), and each Python function becomes a pure Lean
function from the old state to the new state together with the optional
notification it dispatches to Discord.

Timestamps (`time.time()`) are embedded as integers; player world
coordinates are embedded as rationals and `round` models Python's rounding
to the integer grid (no claim below depends on tie-breaking behaviour).
Notifications are embedded structurally: the constructor records which
Discord message the code formats, together with the payload pieces the
claims talk about.
-/

namespace RustBot

/-- One value of the `player_seen` dictionary: the persisted per-player
statistics record `{name, first, last, total, idle}` built in
`update_presence`. -/
structure PlayerRec where
  name : String
  first : Int
  last : Int
  total : Int
  idle : Int
deriving Repr, DecidableEq

/-- The Discord messages dispatched from `update_presence` and
`handle_idle`, embedded structurally.  `idleWarning` and `noLongerIdle`
carry the formatted duration string interpolated into the message. -/
inductive Notification where
  | loggedIn (name : String)
  | loggedOut (name : String)
  | idleWarning (name : String) (duration : String)
  | noLongerIdle (name : String) (duration : String)
deriving Repr, DecidableEq

/-- One roster member as delivered by `socket.get_team_info()`
(`RustTeamMember`): steam id, display name, world position, online flag. -/
structure Member where
  steam_id : ℕ
  name : String
  x : ℚ
  y : ℚ
  is_online : Bool
deriving Repr, DecidableEq

/-- Rounding of a rational to the nearest integer,
`⌊q + 1/2⌋ = ⌊(2·num + den) / (2·den)⌋`, written with explicit numerator
and denominator arithmetic so that it evaluates inside the kernel.  (No
claim below depends on the tie-breaking direction, which is the only
point where this differs from Python's round-half-to-even on floats.) -/
def pyround (q : ℚ) : ℤ := Int.fdiv (2 * q.num + (q.den : Int)) (2 * (q.den : Int))

/-- `pos = (round(player.x), round(player.y))` in `handle_idle`. -/
def pyPos (p : Member) : ℤ × ℤ := (pyround p.x, pyround p.y)

/-- `format_minutes(seconds)` from `src/main.py`: floor-divides by 60
(Python `//` is floor division, hence `Int.fdiv`), then renders
`"{h}h {m}m"` when at least 60 minutes, else `"{m}m"`. -/
def format_minutes (seconds : Int) : String :=
  let minutes : Int := Int.fdiv seconds 60
  if minutes ≥ 60 then
    let h : Int := Int.fdiv minutes 60
    let m : Int := Int.fmod minutes 60
    s!"{h}h {m}m"
  else
    s!"{minutes}m"

/-- The IdleDetector's module-level dictionaries. -/
structure IdleSt where
  last_positions : ℕ → Option (ℤ × ℤ)
  idle_timers : ℕ → Option ℕ
  idle_notify_intervals : ℕ → Option ℕ
  movement_trail : ℕ → Option (List (Int × (ℤ × ℤ)))

/-- All dictionaries empty: the process-start state. -/
def initIdle : IdleSt :=
  ⟨fun _ => none, fun _ => none, fun _ => none, fun _ => none⟩

/-- `handle_idle(player)` from `src/main.py`.  Missing keys are first
initialised (`pos` / `0` / `5` / `[]`), the trail entry `(now, pos)` is
appended unconditionally, then the position comparison either increments
the idle timer (emitting an idle warning when the timer equals the notify
interval, and doubling the interval capped at 60) or resets timer and
interval (emitting a no-longer-AFK message when the timer was ≥ 5). -/
def handle_idle (s : IdleSt) (p : Member) (now : Int) :
    IdleSt × Option Notification :=
  let sid := p.steam_id
  let pos : ℤ × ℤ := pyPos p
  let lastPos : ℤ × ℤ := (s.last_positions sid).getD pos
  let timer0 : ℕ := (s.idle_timers sid).getD 0
  let interval0 : ℕ := (s.idle_notify_intervals sid).getD 5
  let trail : List (Int × (ℤ × ℤ)) :=
    (s.movement_trail sid).getD [] ++ [(now, pos)]
  if pos = lastPos then
    let timer : ℕ := timer0 + 1
    let notif : Option Notification :=
      if timer = interval0 then
        some (.idleWarning p.name (format_minutes ((interval0 : Int) * 60)))
      else none
    let interval : ℕ :=
      if timer = interval0 then min (interval0 * 2) 60 else interval0
    (⟨Function.update s.last_positions sid (some lastPos),
      Function.update s.idle_timers sid (some timer),
      Function.update s.idle_notify_intervals sid (some interval),
      Function.update s.movement_trail sid (some trail)⟩, notif)
  else
    let notif : Option Notification :=
      if 5 ≤ timer0 then
        some (.noLongerIdle p.name (format_minutes (timer0 : Int)))
      else none
    (⟨Function.update s.last_positions sid (some pos),
      Function.update s.idle_timers sid (some 0),
      Function.update s.idle_notify_intervals sid (some 5),
      Function.update s.movement_trail sid (some trail)⟩, notif)

/-- The PresenceTracker's module-level dictionaries. -/
structure PresenceSt where
  player_seen : ℕ → Option PlayerRec
  last_update : ℕ → Option Int
  player_online : ℕ → Option Bool

/-- All dictionaries empty: the process-start state. -/
def initPresence : PresenceSt := ⟨fun _ => none, fun _ => none, fun _ => none⟩

/-- `update_presence(player)` from `src/main.py`.  A missing
`player_seen` entry is created with `first = last = now`, `total = idle =
0` and the observed name; `delta` is the elapsed time since the last
update (0 on the first call); login/logout transitions of the online flag
emit exactly one notification; while online, `total` always accrues
`delta` and `idle` accrues `delta` exactly when the player's idle tick
counter (read from the IdleDetector's `idle_timers`) is ≥ 1. -/
def update_presence (s : PresenceSt) (idle_timers : ℕ → Option ℕ)
    (p : Member) (now : Int) : PresenceSt × Option Notification :=
  let sid := p.steam_id
  let seen0 : PlayerRec := (s.player_seen sid).getD
    { name := p.name, first := now, last := now, total := 0, idle := 0 }
  let lu : Int := (s.last_update sid).getD now
  let delta : Int := now - lu
  let prevOnline : Bool := (s.player_online sid).getD false
  let notif : Option Notification :=
    if !prevOnline && p.is_online then some (.loggedIn p.name)
    else if prevOnline && !p.is_online then some (.loggedOut p.name)
    else none
  let seen1 : PlayerRec :=
    if p.is_online then
      { seen0 with
        total := seen0.total + delta
        idle := if 1 ≤ (idle_timers sid).getD 0 then seen0.idle + delta
                else seen0.idle
        last := now }
    else seen0
  (⟨Function.update s.player_seen sid (some seen1),
    Function.update s.last_update sid (some now),
    Function.update s.player_online sid (some p.is_online)⟩, notif)

/-- The combined mutable state of PresenceTracker and IdleDetector. -/
structure SysSt where
  presence : PresenceSt
  idle : IdleSt

/-- Process-start state: every dictionary empty. -/
def initSys : SysSt := ⟨initPresence, initIdle⟩

/-- One roster member processed by one iteration of `rust_polling_loop`:
`update_presence(player)` first (reading the current `idle_timers`), then
`handle_idle(player)` only when the member is online. -/
def observe (s : SysSt) (p : Member) (now : Int) :
    SysSt × List Notification :=
  let pr := update_presence s.presence s.idle.idle_timers p now
  if p.is_online then
    let hi := handle_idle s.idle p now
    (⟨pr.1, hi.1⟩, [pr.2, hi.2].reduceOption)
  else
    (⟨pr.1, s.idle⟩, [pr.2].reduceOption)

/-- Replay a sequence of observations (member, timestamp). -/
def replay (s : SysSt) (tr : List (Member × Int)) : SysSt :=
  tr.foldl (fun acc pt => (observe acc pt.1 pt.2).1) s

/-- Outcome of one `socket.get_team_info()` call in `rust_polling_loop`:
the awaited call raises (`failure`), returns a falsy `team_info`
(`noTeam`), or returns a member list. -/
inductive FetchResult where
  | failure
  | noTeam
  | roster (members : List Member)
deriving Repr, DecidableEq

/-- The per-member processing of one successful polling cycle. -/
def process_members (s : SysSt) (now : Int) (ms : List Member) :
    SysSt × List Notification :=
  ms.foldl (fun acc p =>
    let r := observe acc.1 p now
    (r.1, acc.2 ++ r.2)) (s, [])

/-- One iteration of `rust_polling_loop`: returns the new state, the
notifications dispatched, and the number of seconds slept before the next
iteration.  An exception is caught and followed by `asyncio.sleep(60)`; a
falsy `team_info` or an empty member list prints, sleeps 10 seconds and
`continue`s (skipping the final 60-second sleep); otherwise every member
is processed and the loop sleeps 60 seconds. -/
def polling_cycle (s : SysSt) (fr : FetchResult) (now : Int) :
    SysSt × List Notification × ℕ :=
  match fr with
  | .failure => (s, ([], 60))
  | .noTeam => (s, ([], 10))
  | .roster [] => (s, ([], 10))
  | .roster ms =>
    let r := process_members s now ms
    (r.1, (r.2, 60))

/-! ### Persistence (`save_player_data_loop` dump / `load_player_data`) -/

/-- The decimal digit character for `d < 10` (ASCII `'0' + d`). -/
def digitChar (d : ℕ) : Char := Char.ofNat (48 + d)

/-- The numeric value of a decimal digit character. -/
def charDigit (c : Char) : ℕ := c.toNat - 48

/-- Python's `str(k)` for a nonnegative integer key: the usual decimal
representation (most-significant digit first, `"0"` for zero). -/
def str_of_nat (n : ℕ) : String :=
  ⟨if n = 0 then ['0'] else ((Nat.digits 10 n).map digitChar).reverse⟩

/-- Python's `int(k)` for a decimal digit string. -/
def nat_of_str (s : String) : ℕ :=
  Nat.ofDigits 10 ((s.data.map charDigit).reverse)

/-- The serialisation performed each cycle of `save_player_data_loop`:
`json.dump({str(k): v for k, v in player_seen.items()}, ...)`.  The JSON
encoding of the record values is handled by the external `json` module and
round-trips strings and integers, so the entries keep their values and
only the keys are stringified. -/
def save_player_data (m : List (ℕ × PlayerRec)) : List (String × PlayerRec) :=
  m.map fun kv => (str_of_nat kv.1, kv.2)

/-- The key conversion performed by `load_player_data` on a parsed file:
`{int(k): v for k, v in json.load(f).items()}`. -/
def load_entries (f : List (String × PlayerRec)) : List (ℕ × PlayerRec) :=
  f.map fun kv => (nat_of_str kv.1, kv.2)

/-- Outcome of `open(SAVE_FILE) ; json.load(f)` in `load_player_data`:
the file is absent (`FileNotFoundError`), present but not valid JSON
(`json.load` raises), or present and parsed to a list of entries. -/
inductive ReadResult where
  | fileNotFound
  | jsonError
  | jsonOk (entries : List (String × PlayerRec))
deriving Repr, DecidableEq

/-- `load_player_data()` from `src/main.py`.  Only `FileNotFoundError` is
caught (yielding the empty mapping); any other exception — in particular a
JSON parse error — propagates, modelled as `Except.error`, in which case
the global `player_seen` is never assigned by this call. -/
def load_player_data : ReadResult → Except Unit (List (ℕ × PlayerRec))
  | .fileNotFound => .ok []
  | .jsonError => .error ()
  | .jsonOk es => .ok (load_entries es)

/-! ### Auxiliary definitions for the idle-notification schedule and the
presence invariant, plus concrete inputs used by witnesses. -/

/-- A run of consecutive `handle_idle` calls for the same member (whose
rounded position therefore never changes), one call per polling tick;
`(idle_run p s n).2` is the notification emitted by the `n`-th call. -/
def idle_run (p : Member) (s : IdleSt) : ℕ → IdleSt × Option Notification
  | 0 => (s, none)
  | n + 1 => handle_idle (idle_run p s n).1 p ((n : Int) + 1)

/-- The value of `idle_notify_intervals` after `n` consecutive idle ticks
starting from a fresh (timer 0, interval 5) state. -/
def interval_after (n : ℕ) : ℕ :=
  if n < 5 then 5
  else if n < 10 then 10
  else if n < 20 then 20
  else if n < 40 then 40
  else 60

/-- Invariant of the PresenceTracker state: every stored record satisfies
`idle ≤ total`, and every stored `last_update` timestamp is at most
`bound` (the time of the most recent observation). -/
def PresenceInv (s : PresenceSt) (bound : Int) : Prop :=
  (∀ sid r, s.player_seen sid = some r → r.idle ≤ r.total) ∧
  (∀ sid t, s.last_update sid = some t → t ≤ bound)

/-- A concrete online member used by witnesses. -/
def mA : Member := ⟨1, "A", 0, 0, true⟩

/-- The same player id observed with a different display name. -/
def mB : Member := ⟨1, "B", 0, 0, true⟩

/-- Presence state after first observing `mA` at time 0. -/
def s1 : PresenceSt := (update_presence initPresence (fun _ => none) mA 0).1

/-- An idle state in which player 1 has been idle for 7 consecutive ticks
at position (5, 5). -/
def sIdle7 : IdleSt :=
  ⟨fun k => if k = 1 then some (5, 5) else none,
   fun k => if k = 1 then some 7 else none,
   fun _ => none, fun _ => none⟩

/-! ### Helper lemmas -/

/-- The rounded position of the concrete member `mA`. -/
theorem pyPos_mA : pyPos mA = (0, 0) := by
  decide

/-- Decoding inverts encoding on single decimal digits. -/
theorem charDigit_digitChar {d : ℕ} (hd : d < 10) :
    charDigit (digitChar d) = d := by
  interval_cases d <;> rfl

/-- `int(str(n)) = n`: the decimal key round-trip used by the
persistence layer. -/
theorem nat_of_str_str_of_nat (n : ℕ) : nat_of_str (str_of_nat n) = n := by
  by_cases h : n = 0
  · subst h; rfl
  · have key : (Nat.digits 10 n).map (fun d => charDigit (digitChar d)) =
        Nat.digits 10 n := by
      rw [List.map_congr_left fun d hd =>
        charDigit_digitChar (Nat.digits_lt_base (by norm_num) hd)]
      exact List.map_id _
    simp only [nat_of_str, str_of_nat, if_neg h]
    rw [List.map_reverse, List.reverse_reverse, List.map_map]
    rw [show (charDigit ∘ digitChar) = fun d => charDigit (digitChar d) from rfl]
    rw [key, Nat.ofDigits_digits]

/-! ### Claim theorems -/

/-- C7: saving the `player_seen` mapping (stringifying each numeric key)
and loading it back (re-parsing each key with `int`) yields the same
association list: same keys, same `{name, first, last, total, idle}`
values. -/
theorem save_load_round_trip (m : List (ℕ × PlayerRec)) :
    load_player_data (.jsonOk (save_player_data m)) = .ok m := by
  have hentries : load_entries (save_player_data m) = m := by
    unfold load_entries save_player_data
    rw [List.map_map]
    have h2 : ((fun kv : String × PlayerRec => (nat_of_str kv.1, kv.2)) ∘
        fun kv : ℕ × PlayerRec => (str_of_nat kv.1, kv.2)) = id := by
      funext kv
      simp [Function.comp, nat_of_str_str_of_nat]
    rw [h2, List.map_id]
  simp [load_player_data, hentries]

/-- C10 counterexample: a persistence file that is present and contains
the valid JSON object `{}` also makes `load_player_data` succeed with the
empty mapping, so "empty without error" does not hold exactly when the
file is absent. -/
theorem load_empty_object_counterexample :
    load_player_data (.jsonOk []) = .ok [] ∧
      ReadResult.jsonOk [] ≠ ReadResult.fileNotFound :=
  ⟨rfl, by decide⟩

/-- C10 (amended): an absent persistence file initialises the mapping to
empty without error, while a present file whose content is not valid JSON
makes `load_player_data` raise (startup fatal), leaving the mapping
unassigned by that call. -/
theorem load_absent_empty_invalid_raises :
    load_player_data .fileNotFound = .ok [] ∧
      load_player_data .jsonError = .error () :=
  ⟨rfl, rfl⟩

/-- C5 counterexample: a cycle whose roster fetch returns an empty member
list skips processing but sleeps only 10 seconds — not the full 60-second
period — before the next fetch attempt. -/
theorem empty_roster_wait_counterexample :
    (polling_cycle initSys (.roster []) 0).2.2 = 10 ∧ (10 : ℕ) ≠ 60 :=
  ⟨rfl, by decide⟩

/-- C5 (amended): a cycle whose fetch raises skips processing and waits
the full 60-second period; a cycle whose fetch returns a missing or empty
roster skips processing but waits only 10 seconds before retrying. -/
theorem polling_cycle_waits (s : SysSt) (now : Int) :
    polling_cycle s .failure now = (s, ([], 60)) ∧
      polling_cycle s .noTeam now = (s, ([], 10)) ∧
      polling_cycle s (.roster []) now = (s, ([], 10)) :=
  ⟨rfl, rfl, rfl⟩

/-- C6: `update_presence` emits exactly one `LoggedIn` iff the previously
stored online flag was false or absent and the observed flag is true,
exactly one `LoggedOut` iff the stored flag was true and the observed flag
is false, and nothing when the flag is unchanged. -/
theorem login_logout_events (s : PresenceSt) (it : ℕ → Option ℕ)
    (p : Member) (now : Int) :
    ((update_presence s it p now).2 = some (.loggedIn p.name) ↔
      (s.player_online p.steam_id).getD false = false ∧ p.is_online = true) ∧
    ((update_presence s it p now).2 = some (.loggedOut p.name) ↔
      (s.player_online p.steam_id).getD false = true ∧ p.is_online = false) ∧
    ((s.player_online p.steam_id).getD false = p.is_online →
      (update_presence s it p now).2 = none) := by
  cases hprev : (s.player_online p.steam_id).getD false <;>
    cases hon : p.is_online <;>
      simp [update_presence, hprev, hon]

/-- C6 witness: a first observation with the online flag set emits a
`LoggedIn` notification. -/
theorem login_logout_events_witness :
    (update_presence initPresence (fun _ => none) mA 0).2 =
      some (.loggedIn mA.name) :=
  (login_logout_events initPresence (fun _ => none) mA 0).1.mpr ⟨rfl, rfl⟩

/-- C8: every `handle_idle` call appends exactly one `(now, rounded
position)` entry to the caller's trail, keeping every previously recorded
entry, and leaves every other player's trail unchanged. -/
theorem trail_appends_one (s : IdleSt) (p : Member) (now : Int) :
    (handle_idle s p now).1.movement_trail p.steam_id =
      some ((s.movement_trail p.steam_id).getD [] ++ [(now, pyPos p)]) ∧
    ∀ k, k ≠ p.steam_id →
      (handle_idle s p now).1.movement_trail k = s.movement_trail k := by
  constructor
  · by_cases h : pyPos p = (s.last_positions p.steam_id).getD (pyPos p)
    · simp only [handle_idle]
      rw [if_pos h]
      simp [Function.update_same]
    · simp only [handle_idle]
      rw [if_neg h]
      simp [Function.update_same]
  · intro k hk
    by_cases h : pyPos p = (s.last_positions p.steam_id).getD (pyPos p)
    · simp only [handle_idle]
      rw [if_pos h]
      simp [Function.update_noteq hk]
    · simp only [handle_idle]
      rw [if_neg h]
      simp [Function.update_noteq hk]

/-- C8 witness: the first observation of `mA` creates the one-entry trail
for player 1 and leaves player 2's (absent) trail untouched. -/
theorem trail_appends_one_witness :
    (handle_idle initIdle mA 0).1.movement_trail mA.steam_id =
      some [(0, pyPos mA)] ∧
      (handle_idle initIdle mA 0).1.movement_trail 2 = none := by
  have h := trail_appends_one initIdle mA 0
  refine ⟨?_, ?_⟩
  · rw [h.1]
    rfl
  · rw [h.2 2 (by decide)]
    rfl

/-- C9: when a player moves after `c` consecutive idle ticks with
`5 ≤ c < 60`, the no-longer-AFK notification passes the raw tick count `c`
to `format_minutes`, which floor-divides by 60 as if it were seconds, so
the formatted idle duration is the string `"0m"`. -/
theorem no_longer_idle_formats_zero (s : IdleSt) (p : Member) (now : Int)
    (c : ℕ) (hc : s.idle_timers p.steam_id = some c) (h5 : 5 ≤ c)
    (h60 : c < 60)
    (hmove : pyPos p ≠ (s.last_positions p.steam_id).getD (pyPos p)) :
    (handle_idle s p now).2 =
      some (.noLongerIdle p.name (format_minutes (c : Int))) ∧
    format_minutes (c : Int) = "0m" := by
  have hfmt : format_minutes (c : Int) = "0m" := by
    have hdiv : Int.fdiv (c : Int) 60 = 0 := by
      rw [Int.fdiv_eq_ediv _ (by norm_num)]
      omega
    simp [format_minutes, hdiv]
    rfl
  refine ⟨?_, hfmt⟩
  simp [handle_idle, hmove, hc, h5]

/-- C9 witness: player 1, idle for 7 ticks at (5, 5), moves to (0, 0);
the emitted notification formats the idle duration as "0m". -/
theorem no_longer_idle_formats_zero_witness :
    (handle_idle sIdle7 mA 3).2 =
      some (.noLongerIdle mA.name (format_minutes ((7 : ℕ) : Int))) ∧
    format_minutes ((7 : ℕ) : Int) = "0m" :=
  no_longer_idle_formats_zero sIdle7 mA 3 7 rfl (by decide) (by decide)
    (by rw [pyPos_mA]; decide)

/-- C1 counterexample: player 1 is first observed with name "A" and then
observed again with name "B"; the stored name is still "A", not the name
carried in the second observation, so subsequent observations do not
overwrite the stored name. -/
theorem name_overwrite_counterexample :
    ((update_presence s1 (fun _ => none) mB 1).1.player_seen 1).map
        PlayerRec.name = some "A" ∧
      mB.name = "B" ∧ ("A" : String) ≠ "B" :=
  ⟨by decide, rfl, by decide⟩

/-- C1 (amended): `update_presence` writes the observed name only when it
creates the record on a player's first observation; every subsequent call
leaves the stored name unchanged, so after any observation the stored name
is the one from the first observation, not the latest one. -/
theorem name_written_once (s : PresenceSt) (it : ℕ → Option ℕ)
    (p : Member) (now : Int) :
    (∀ r, s.player_seen p.steam_id = some r →
      ((update_presence s it p now).1.player_seen p.steam_id).map
        PlayerRec.name = some r.name) ∧
    (s.player_seen p.steam_id = none →
      ((update_presence s it p now).1.player_seen p.steam_id).map
        PlayerRec.name = some p.name) := by
  constructor
  · intro r hr
    cases hon : p.is_online <;>
      simp [update_presence, hr, hon, Function.update_same]
  · intro hr
    cases hon : p.is_online <;>
      simp [update_presence, hr, hon, Function.update_same]

/-- C1 witness: observing player 1 (whose stored record carries name "A")
again with name "B" keeps the stored name "A". -/
theorem name_written_once_witness :
    ((update_presence s1 (fun _ => none) mB 1).1.player_seen
        mB.steam_id).map PlayerRec.name = some "A" :=
  (name_written_once s1 (fun _ => none) mB 1).1
    ⟨"A", 0, 0, 0, 0⟩ (by decide)

/-- C3 counterexample: on the very first `handle_idle` call for player 1
the just-initialised baseline equals the observed position, so the idle
counter is immediately incremented: the resulting consecutive idle count
is 1, not 0. -/
theorem first_idle_counterexample :
    (handle_idle initIdle mA 0).1.idle_timers mA.steam_id = some 1 ∧
      some (1 : ℕ) ≠ some (0 : ℕ) := by
  constructor
  · have h : pyPos mA = (initIdle.last_positions mA.steam_id).getD
        (pyPos mA) := rfl
    simp only [handle_idle]
    rw [if_pos h]
    simp [Function.update_same, initIdle]
  · decide

/-- C3 (amended): on the first `handle_idle` call for a player id the
resulting state has the observed rounded position as baseline, consecutive
idle count 1 (the counter is initialised to 0 and immediately incremented
because the fresh baseline equals the observed position), and notification
threshold 5, and no notification is emitted. -/
theorem first_idle_observation (s : IdleSt) (p : Member) (now : Int)
    (h1 : s.last_positions p.steam_id = none)
    (h2 : s.idle_timers p.steam_id = none)
    (h3 : s.idle_notify_intervals p.steam_id = none) :
    (handle_idle s p now).1.last_positions p.steam_id = some (pyPos p) ∧
    (handle_idle s p now).1.idle_timers p.steam_id = some 1 ∧
    (handle_idle s p now).1.idle_notify_intervals p.steam_id = some 5 ∧
    (handle_idle s p now).2 = none := by
  have h : pyPos p = (s.last_positions p.steam_id).getD (pyPos p) := by
    rw [h1]
    rfl
  refine ⟨?_, ?_, ?_, ?_⟩ <;>
    · simp only [handle_idle]
      rw [if_pos h]
      simp [h1, h2, h3, Function.update_same]

/-- C3 witness: the first observation of `mA` from the empty state. -/
theorem first_idle_observation_witness :
    (handle_idle initIdle mA 0).1.last_positions mA.steam_id =
        some (pyPos mA) ∧
      (handle_idle initIdle mA 0).1.idle_timers mA.steam_id = some 1 ∧
      (handle_idle initIdle mA 0).1.idle_notify_intervals mA.steam_id =
        some 5 ∧
      (handle_idle initIdle mA 0).2 = none :=
  first_idle_observation initIdle mA 0 rfl rfl rfl

/-- The `min (notify_at * 2) 60` update performed on a hit reproduces
`interval_after` at the next tick. -/
theorem interval_after_step (k : ℕ) :
    (if k + 1 = interval_after k then min (interval_after k * 2) 60
      else interval_after k) = interval_after (k + 1) := by
  simp only [interval_after, Nat.min_def]
  split_ifs <;> omega

/-- The idle counter meets the current notify interval exactly at the
ticks 5, 10, 20, 40 and 60. -/
theorem interval_hit (k : ℕ) :
    k + 1 = interval_after k ↔
      k + 1 = 5 ∨ k + 1 = 10 ∨ k + 1 = 20 ∨ k + 1 = 40 ∨ k + 1 = 60 := by
  simp only [interval_after]
  split_ifs <;> omega

/-- State invariant along a run of consecutive idle ticks from a fresh
(timer 0, interval 5) state: after `n` ticks the baseline still equals the
observed position, the timer reads `n`, and the notify interval reads
`interval_after n`. -/
theorem idle_run_state (p : Member) (s : IdleSt)
    (h1 : (s.last_positions p.steam_id).getD (pyPos p) = pyPos p)
    (h2 : (s.idle_timers p.steam_id).getD 0 = 0)
    (h3 : (s.idle_notify_intervals p.steam_id).getD 5 = 5) :
    ∀ n : ℕ,
      ((idle_run p s n).1.last_positions p.steam_id).getD (pyPos p) =
        pyPos p ∧
      ((idle_run p s n).1.idle_timers p.steam_id).getD 0 = n ∧
      ((idle_run p s n).1.idle_notify_intervals p.steam_id).getD 5 =
        interval_after n := by
  intro n
  induction n with
  | zero =>
    refine ⟨h1, h2, ?_⟩
    show (s.idle_notify_intervals p.steam_id).getD 5 = interval_after 0
    exact h3.trans rfl
  | succ k ih =>
    obtain ⟨ip, it, ii⟩ := ih
    have hcond : pyPos p =
        (((idle_run p s k).1.last_positions p.steam_id).getD (pyPos p)) :=
      ip.symm
    simp only [idle_run, handle_idle]
    rw [if_pos hcond]
    refine ⟨?_, ?_, ?_⟩
    · simp [Function.update_same, ip]
    · simp [Function.update_same, it]
    · simp only [Function.update_same, it, ii, Option.getD_some]
      exact interval_after_step k

/-- C4: from any fresh idle state (timer 0, interval 5, baseline equal to
the observed rounded position — in particular right after a move or a
first sighting), a run of consecutive observations with unchanged rounded
position emits an idle warning at tick `n` exactly for `n` in
5, 10, 20, 40, 60: the interval doubles to the 60 cap, which the counter
meets exactly once.  Moreover any observation with a changed rounded
position resets the timer to 0, the interval to 5 and the baseline to the
new position, so the schedule restarts at 5. -/
theorem idle_warning_schedule :
    (∀ (p : Member) (s : IdleSt),
      (s.last_positions p.steam_id).getD (pyPos p) = pyPos p →
      (s.idle_timers p.steam_id).getD 0 = 0 →
      (s.idle_notify_intervals p.steam_id).getD 5 = 5 →
      ∀ n : ℕ,
        ((∃ d, (idle_run p s n).2 = some (.idleWarning p.name d)) ↔
          (n = 5 ∨ n = 10 ∨ n = 20 ∨ n = 40 ∨ n = 60))) ∧
    (∀ (q : Member) (s : IdleSt) (now : Int),
      pyPos q ≠ (s.last_positions q.steam_id).getD (pyPos q) →
      ((handle_idle s q now).1.last_positions q.steam_id).getD (pyPos q) =
          pyPos q ∧
        ((handle_idle s q now).1.idle_timers q.steam_id).getD 0 = 0 ∧
        ((handle_idle s q now).1.idle_notify_intervals q.steam_id).getD 5 =
          5) := by
  constructor
  · intro p s h1 h2 h3 n
    cases n with
    | zero => simp [idle_run]
    | succ k =>
      obtain ⟨ip, it, ii⟩ := idle_run_state p s h1 h2 h3 k
      have hcond : pyPos p =
          (((idle_run p s k).1.last_positions p.steam_id).getD (pyPos p)) :=
        ip.symm
      simp only [idle_run, handle_idle]
      rw [if_pos hcond]
      simp only [it, ii, Option.getD_some]
      by_cases hhit : k + 1 = interval_after k
      · rw [if_pos hhit]
        constructor
        · intro _
          exact (interval_hit k).mp hhit
        · intro _
          exact ⟨_, rfl⟩
      · rw [if_neg hhit]
        constructor
        · intro hd
          obtain ⟨d, hd⟩ := hd
          exact absurd hd (by simp)
        · intro hor
          exact absurd ((interval_hit k).mpr hor) hhit
  · intro q s now hmove
    have h : ¬ pyPos q = (s.last_positions q.steam_id).getD (pyPos q) :=
      hmove
    refine ⟨?_, ?_, ?_⟩ <;>
      · simp only [handle_idle]
        rw [if_neg h]
        simp [Function.update_same]

/-- C4 witness: the fifth consecutive observation of `mA` from the empty
state emits an idle warning (tick 5 is in the schedule). -/
theorem idle_warning_schedule_witness :
    ∃ d, (idle_run mA initIdle 5).2 =
      some (.idleWarning mA.name d) :=
  (idle_warning_schedule.1 mA initIdle rfl rfl rfl 5).mpr (Or.inl rfl)

/-- One `update_presence` call at a time `now` at least the previous
bound preserves the presence invariant, with `now` as new bound: `total`
accrues the (nonnegative) elapsed delta whenever the player is online and
`idle` accrues the same delta or nothing. -/
theorem update_presence_inv {s : PresenceSt} {b : Int} (it : ℕ → Option ℕ)
    (p : Member) {now : Int} (hinv : PresenceInv s b) (hb : b ≤ now) :
    PresenceInv (update_presence s it p now).1 now := by
  obtain ⟨hseen, hup⟩ := hinv
  have hdelta : 0 ≤ now - (s.last_update p.steam_id).getD now := by
    cases h : s.last_update p.steam_id with
    | none => simp
    | some t =>
      have := hup _ t h
      simp only [Option.getD_some]
      omega
  have hseen0 : ((s.player_seen p.steam_id).getD
      { name := p.name, first := now, last := now, total := 0,
        idle := 0 }).idle ≤
      ((s.player_seen p.steam_id).getD
      { name := p.name, first := now, last := now, total := 0,
        idle := 0 }).total := by
    cases h : s.player_seen p.steam_id with
    | none => simp
    | some r0 =>
      simp only [Option.getD_some]
      exact hseen _ r0 h
  constructor
  · intro sid r hr
    by_cases hsid : sid = p.steam_id
    · subst hsid
      simp only [update_presence, Function.update_same,
        Option.some.injEq] at hr
      subst hr
      split_ifs <;> (try simp only []) <;> omega
    · simp only [update_presence,
        Function.update_noteq hsid] at hr
      exact hseen _ r hr
  · intro sid t ht
    by_cases hsid : sid = p.steam_id
    · subst hsid
      simp only [update_presence, Function.update_same,
        Option.some.injEq] at ht
      omega
    · simp only [update_presence,
        Function.update_noteq hsid] at ht
      have := hup _ t ht
      omega

/-- `observe` leaves the presence component equal to the result of
`update_presence`, so it preserves the presence invariant as well. -/
theorem observe_inv {s : SysSt} {b : Int} (p : Member) {now : Int}
    (hinv : PresenceInv s.presence b) (hb : b ≤ now) :
    PresenceInv (observe s p now).1.presence now := by
  have h := update_presence_inv s.idle.idle_timers p hinv hb
  cases hon : p.is_online <;> simp only [observe, hon] <;> simpa using h

/-- Replaying any time-ordered observation trace from a state satisfying
the presence invariant keeps `idle ≤ total` for every stored record. -/
theorem replay_inv :
    ∀ (tr : List (Member × Int)) (s : SysSt) (b : Int),
      PresenceInv s.presence b →
      List.Chain (fun a c : Int => a ≤ c) b (tr.map Prod.snd) →
      ∀ sid r, (replay s tr).presence.player_seen sid = some r →
        r.idle ≤ r.total := by
  intro tr
  induction tr with
  | nil =>
    intro s b hinv _ sid r hr
    exact hinv.1 sid r hr
  | cons pt rest ih =>
    intro s b hinv hchain
    rw [List.map_cons] at hchain
    cases hchain with
    | cons hb hrest =>
      exact ih ((observe s pt.1 pt.2).1) pt.2
        (observe_inv pt.1 hinv hb) hrest

/-- C2: replaying any sequence of observations with non-decreasing
timestamps from the process-start state (all records created with
`total = idle = 0`) yields, for every player, accumulated `idle` seconds
at most the accumulated `total` seconds. -/
theorem idle_le_total (tr : List (Member × Int))
    (hmono : (tr.map Prod.snd).Chain' (fun a c => a ≤ c)) :
    ∀ sid r, (replay initSys tr).presence.player_seen sid = some r →
      r.idle ≤ r.total := by
  cases tr with
  | nil =>
    intro sid r hr
    simp only [replay, List.foldl_nil, initSys, initPresence] at hr
    exact Option.noConfusion hr
  | cons pt rest =>
    have hinv : PresenceInv initSys.presence pt.2 := by
      constructor <;> intro sid x hx <;>
        simp only [initSys, initPresence] at hx <;>
        exact Option.noConfusion hx
    have hchain : List.Chain (fun a c : Int => a ≤ c) pt.2
        (rest.map Prod.snd) := hmono
    exact replay_inv (pt :: rest) initSys pt.2 hinv
      (List.Chain.cons (le_refl pt.2) hchain)

/-- C2 witness: two observations of the online member `mA` at times 0 and
60; the stored record has `idle = total = 60`. -/
theorem idle_le_total_witness :
    (replay initSys [(mA, 0), (mA, 60)]).presence.player_seen 1 =
      some ⟨"A", 0, 60, 60, 60⟩ ∧
    (⟨"A", 0, 60, 60, 60⟩ : PlayerRec).idle ≤
      (⟨"A", 0, 60, 60, 60⟩ : PlayerRec).total := by
  have h := idle_le_total [(mA, 0), (mA, 60)]
    (List.Chain.cons (by norm_num) (List.Chain.nil)) 1
    ⟨"A", 0, 60, 60, 60⟩
  refine ⟨?_, ?_⟩
  · decide
  · exact h (by decide)

end RustBot
